import Mathlib

/-!
# Verification of the yocto-gl pbrt scene-description-language interpreter

Shallow embedding of the pbrt ("SDL") loader of `yocto_modelio.cpp` and the
scene conversion of `yocto_sceneio.cpp`.  Floating point numbers are embedded
as rationals (exact arithmetic); machine maps (`unordered_map`) are embedded
as association lists with the same insert/lookup semantics; C++ exceptions
become `Except` errors.  Undefined behaviour of the C++ source (access to the
back of an empty `std::vector`) is modelled by dedicated error values, marked
`ub*` below.
-/

namespace YoctoPbrt

/-- Modelled from the spec: `vec3f` (3d vector of the missing `yocto_math.h`),
embedded with rational coordinates. -/
structure Vec3 where
  x : ℚ
  y : ℚ
  z : ℚ
deriving DecidableEq

/-- Modelled from the spec: `frame3f`, "an affine transform (rotation/scale +
translation)" (spec glossary).  `x`, `y`, `z` are the columns of the linear
part and `o` is the origin, as in the missing `yocto_math.h`. -/
structure Frame where
  x : Vec3
  y : Vec3
  z : Vec3
  o : Vec3
deriving DecidableEq

def Vec3.zero : Vec3 := ⟨0, 0, 0⟩

instance : Inhabited Vec3 := ⟨Vec3.zero⟩

/-- Apply the linear part of a frame to a vector (columns times coordinates). -/
def Frame.lin (a : Frame) (v : Vec3) : Vec3 :=
  ⟨a.x.x * v.x + a.y.x * v.y + a.z.x * v.z,
   a.x.y * v.x + a.y.y * v.y + a.z.y * v.z,
   a.x.z * v.x + a.y.z * v.y + a.z.z * v.z⟩

def Vec3.add (a b : Vec3) : Vec3 := ⟨a.x + b.x, a.y + b.y, a.z + b.z⟩

/-- Modelled from the spec: frame composition (`operator*` of `frame3f`):
the affine composition, linear parts multiplied and the second origin mapped
through the first frame. -/
def Frame.mul (a b : Frame) : Frame :=
  ⟨a.lin b.x, a.lin b.y, a.lin b.z, (a.lin b.o).add a.o⟩

def Frame.identity : Frame :=
  ⟨⟨1, 0, 0⟩, ⟨0, 1, 0⟩, ⟨0, 0, 1⟩, ⟨0, 0, 0⟩⟩

instance : Inhabited Frame := ⟨Frame.identity⟩

theorem Vec3.ext_iff' (a b : Vec3) : a = b ↔ a.x = b.x ∧ a.y = b.y ∧ a.z = b.z := by
  constructor
  · intro h; subst h; exact ⟨rfl, rfl, rfl⟩
  · rintro ⟨h1, h2, h3⟩; cases a; cases b; simp_all

theorem Frame.mul_assoc (a b c : Frame) : (a.mul b).mul c = a.mul (b.mul c) := by
  cases a; cases b; cases c
  simp only [Frame.mul, Frame.lin, Vec3.add, Frame.mk.injEq, Vec3.ext_iff']
  refine ⟨⟨by ring, by ring, by ring⟩, ⟨by ring, by ring, by ring⟩,
    ⟨by ring, by ring, by ring⟩, ⟨by ring, by ring, by ring⟩⟩

/-! ## Parameter value model (`pbrt_value`, `parse_pbrt_params`, `write_pbrt_values`)

The value region of a statement is embedded as a list of tokens: the
whitespace-delimited lexemes produced by the value lexer (numbers, quoted
strings, and the two brackets).  `strtof`/`strtol` number parsing is below
this abstraction: a `num` token carries the parsed rational. -/

instance {ε α : Type _} [DecidableEq ε] [DecidableEq α] : DecidableEq (Except ε α) :=
  fun a b =>
    match a, b with
    | .ok x, .ok y =>
      if h : x = y then .isTrue (by rw [h]) else .isFalse (by simp [h])
    | .error x, .error y =>
      if h : x = y then .isTrue (by rw [h]) else .isFalse (by simp [h])
    | .ok _, .error _ => .isFalse (by simp)
    | .error _, .ok _ => .isFalse (by simp)

/-- Token of a parameter value region. -/
inductive PTok where
  | num (q : ℚ)
  | str (s : String)
  | lbrack
  | rbrack
deriving DecidableEq

/-- Error kinds; one constructor per distinct `throw std::runtime_error`
message of the embedded code.  `ubEmptyTop` / `ubEmptyPop` model the C++
undefined behaviour of `stack.back()` / `stack.pop_back()` on an empty
vector. -/
inductive PErr where
  | numberExpected          -- "number expected"
  | cannotParseValue        -- "cannot parse value"
  | badValue                -- "bad pbrt value"
  | stringArray             -- "do not support pbrt string array"
  | badProperty             -- "bad pbrt blackbody property"
  | xyzConversion           -- "xyz conversion"
  | unknownSpectrumFile     -- "unknown spectrum file"
  | unsupportedSpectrum     -- "unsupported spectrum format"
  | outOfRange              -- std::out_of_range from unordered_map::at
  | unknownType             -- "unknown pbrt type"
  | badStack                -- "bad pbrt stack"
  | badStackWorld           -- "bad stack"
  | unknownObject           -- "cannot find object ..."
  | badActiveTransform      -- "bad active transform"
  | unknownCommand          -- "unknown command ..."
  | ubEmptyTop
  | ubEmptyPop
deriving DecidableEq

/-- `pbrt_value_type` of `yocto_modelio.cpp`. -/
inductive pbrt_value_type where
  | real | integer | boolean | string | point | normal | vector | texture
  | color | point2 | vector2 | spectrum
deriving DecidableEq

/-- `pbrt_value` of `yocto_modelio.cpp`: the tagged value record with one
scalar payload and one array payload per arity. -/
structure pbrt_value where
  name : String := ""
  type : pbrt_value_type := .real
  value1f : ℚ := 0
  value2f : ℚ × ℚ := (0, 0)
  value3f : Vec3 := Vec3.zero
  value1i : Int := 0
  value1b : Bool := false
  value1s : String := ""
  vector1f : List ℚ := []
  vector2f : List (ℚ × ℚ) := []
  vector3f : List Vec3 := []
  vector1i : List Int := []
deriving DecidableEq

/-- The `while` loop of the bracketed case of `parse_pbrt_pvalues`
(`parse_pbrt_params` in `yocto_modelio.cpp`), instantiated at `float` values:
parse scalars until `]`; the first scalar goes to the scalar slot `value`, and
is copied into the array `values` only when a second scalar follows. -/
def parse_pbrt_pvalues_f_loop (value : ℚ) (values : List ℚ) :
    List PTok → Except PErr (ℚ × List ℚ × List PTok)
  | [] => .error .numberExpected
  | .num q :: rest =>
    let value' := if values.isEmpty then q else value
    let values' := if values.isEmpty then values else values ++ [q]
    match rest with
    | [] => .error .badValue
    | .rbrack :: rest' => .ok (value', values', rest')
    | _ =>
      parse_pbrt_pvalues_f_loop value'
        (if values'.isEmpty then values' ++ [value'] else values') rest
  | _ => .error .numberExpected

/-- `parse_pbrt_pvalues` at `float`: bracketed region or one bare scalar. -/
def parse_pbrt_pvalues_f : List PTok → Except PErr (ℚ × List ℚ × List PTok)
  | [] => .error .badValue
  | .lbrack :: rest =>
    if rest.isEmpty then .error .badValue
    else parse_pbrt_pvalues_f_loop 0 [] rest
  | .num q :: rest => .ok (q, [], rest)
  | _ => .error .numberExpected

/-- `strtol` on an integer token: a `num` token is an integer literal
exactly when its rational value is integral. -/
def parse_int_tok (q : ℚ) : Except PErr Int :=
  if q.den = 1 then .ok q.num else .error .numberExpected

/-- The bracketed-value loop instantiated at `int` values. -/
def parse_pbrt_pvalues_i_loop (value : Int) (values : List Int) :
    List PTok → Except PErr (Int × List Int × List PTok)
  | [] => .error .numberExpected
  | .num q :: rest =>
    match parse_int_tok q with
    | .error e => .error e
    | .ok n =>
      let value' := if values.isEmpty then n else value
      let values' := if values.isEmpty then values else values ++ [n]
      match rest with
      | [] => .error .badValue
      | .rbrack :: rest' => .ok (value', values', rest')
      | _ =>
        parse_pbrt_pvalues_i_loop value'
          (if values'.isEmpty then values' ++ [value'] else values') rest
  | _ => .error .numberExpected

/-- `parse_pbrt_pvalues` at `int`. -/
def parse_pbrt_pvalues_i : List PTok → Except PErr (Int × List Int × List PTok)
  | [] => .error .badValue
  | .lbrack :: rest =>
    if rest.isEmpty then .error .badValue
    else parse_pbrt_pvalues_i_loop 0 [] rest
  | .num q :: rest =>
    match parse_int_tok q with
    | .error e => .error e
    | .ok n => .ok (n, [], rest)
  | _ => .error .numberExpected

/-- The bracketed-value loop instantiated at `string` values (quoted tokens). -/
def parse_pbrt_pvalues_s_loop (value : String) (values : List String) :
    List PTok → Except PErr (String × List String × List PTok)
  | [] => .error .cannotParseValue
  | .str q :: rest =>
    let value' := if values.isEmpty then q else value
    let values' := if values.isEmpty then values else values ++ [q]
    match rest with
    | [] => .error .badValue
    | .rbrack :: rest' => .ok (value', values', rest')
    | _ =>
      parse_pbrt_pvalues_s_loop value'
        (if values'.isEmpty then values' ++ [value'] else values') rest
  | _ => .error .cannotParseValue

/-- `parse_pbrt_pvalues` at `string`. -/
def parse_pbrt_pvalues_s : List PTok → Except PErr (String × List String × List PTok)
  | [] => .error .badValue
  | .lbrack :: rest =>
    if rest.isEmpty then .error .badValue
    else parse_pbrt_pvalues_s_loop "" [] rest
  | .str q :: rest => .ok (q, [], rest)
  | _ => .error .cannotParseValue

/-- The bracketed-value loop instantiated at `vec3f` values (arity 3:
`parse_pbrt_value(vec3f)` consumes three consecutive numbers). -/
def parse_pbrt_pvalues_v3_loop (value : Vec3) (values : List Vec3) :
    List PTok → Except PErr (Vec3 × List Vec3 × List PTok)
  | .num a :: .num b :: .num c :: rest =>
    let v : Vec3 := ⟨a, b, c⟩
    let value' := if values.isEmpty then v else value
    let values' := if values.isEmpty then values else values ++ [v]
    match rest with
    | [] => .error .badValue
    | .rbrack :: rest' => .ok (value', values', rest')
    | _ =>
      parse_pbrt_pvalues_v3_loop value'
        (if values'.isEmpty then values' ++ [value'] else values') rest
  | _ => .error .numberExpected

/-- `parse_pbrt_pvalues` at `vec3f`. -/
def parse_pbrt_pvalues_v3 : List PTok → Except PErr (Vec3 × List Vec3 × List PTok)
  | [] => .error .badValue
  | .lbrack :: rest =>
    if rest.isEmpty then .error .badValue
    else parse_pbrt_pvalues_v3_loop Vec3.zero [] rest
  | .num a :: .num b :: .num c :: rest => .ok (⟨a, b, c⟩, [], rest)
  | _ => .error .numberExpected

/-- The bracketed-value loop instantiated at `vec2f` values (arity 2). -/
def parse_pbrt_pvalues_v2_loop (value : ℚ × ℚ) (values : List (ℚ × ℚ)) :
    List PTok → Except PErr ((ℚ × ℚ) × List (ℚ × ℚ) × List PTok)
  | .num a :: .num b :: rest =>
    let v : ℚ × ℚ := (a, b)
    let value' := if values.isEmpty then v else value
    let values' := if values.isEmpty then values else values ++ [v]
    match rest with
    | [] => .error .badValue
    | .rbrack :: rest' => .ok (value', values', rest')
    | _ =>
      parse_pbrt_pvalues_v2_loop value'
        (if values'.isEmpty then values' ++ [value'] else values') rest
  | _ => .error .numberExpected

/-- `parse_pbrt_pvalues` at `vec2f`. -/
def parse_pbrt_pvalues_v2 : List PTok → Except PErr ((ℚ × ℚ) × List (ℚ × ℚ) × List PTok)
  | [] => .error .badValue
  | .lbrack :: rest =>
    if rest.isEmpty then .error .badValue
    else parse_pbrt_pvalues_v2_loop (0, 0) [] rest
  | .num a :: .num b :: rest => .ok ((a, b), [], rest)
  | _ => .error .numberExpected

/-! ## The builtin metal spectrum table and spectrum filename resolution -/

/-- `get_pbrt_etak` of `yocto_modelio.cpp`: the builtin metal-name → (eta, k)
table; `none` models the `std::out_of_range` thrown by `at` on a miss. -/
def get_pbrt_etak (name : String) : Option (Vec3 × Vec3) :=
  match name with
  | "a-C" => some (⟨2.9440999183, 2.2271502925, 1.9681668794⟩,
                   ⟨0.8874329109, 0.7993216383, 0.8152862927⟩)
  | "Ag" => some (⟨0.1552646489, 0.1167232965, 0.1383806959⟩,
                  ⟨4.8283433224, 3.1222459278, 2.1469504455⟩)
  | "Al" => some (⟨1.6574599595, 0.8803689579, 0.5212287346⟩,
                  ⟨9.2238691996, 6.2695232477, 4.8370012281⟩)
  | "AlAs" => some (⟨3.6051023902, 3.2329365777, 2.2175611545⟩,
                    ⟨0.0006670247, -0.0004999400, 0.0074261204⟩)
  | "AlSb" => some (⟨-0.0485225705, 4.1427547893, 4.6697691348⟩,
                    ⟨-0.0363741915, 0.0937665154, 1.3007390124⟩)
  | "Au" => some (⟨0.1431189557, 0.3749570432, 1.4424785571⟩,
                  ⟨3.9831604247, 2.3857207478, 1.6032152899⟩)
  | "Be" => some (⟨4.1850592788, 3.1850604423, 2.7840913457⟩,
                  ⟨3.8354398268, 3.0101260162, 2.8690088743⟩)
  | "Cr" => some (⟨4.3696828663, 2.9167024892, 1.6547005413⟩,
                  ⟨5.2064337956, 4.2313645277, 3.7549467933⟩)
  | "CsI" => some (⟨2.1449030413, 1.7023164587, 1.6624194173⟩,
                   ⟨0.0000000000, 0.0000000000, 0.0000000000⟩)
  | "Cu" => some (⟨0.2004376970, 0.9240334304, 1.1022119527⟩,
                  ⟨3.9129485033, 2.4528477015, 2.1421879552⟩)
  | "Cu2O" => some (⟨3.5492833755, 2.9520622449, 2.7369202137⟩,
                    ⟨0.1132179294, 0.1946659670, 0.6001681264⟩)
  | "CuO" => some (⟨3.2453822204, 2.4496293965, 2.1974114493⟩,
                   ⟨0.5202739621, 0.5707372756, 0.7172250613⟩)
  | "d-C" => some (⟨2.7112524747, 2.3185812849, 2.2288565009⟩,
                   ⟨0.0000000000, 0.0000000000, 0.0000000000⟩)
  | "Hg" => some (⟨2.3989314904, 1.4400254917, 0.9095512090⟩,
                  ⟨6.3276269444, 4.3719414152, 3.4217899270⟩)
  | "HgTe" => some (⟨4.7795267752, 3.2309984581, 2.6600252401⟩,
                    ⟨1.6319827058, 1.5808189339, 1.7295753852⟩)
  | "Ir" => some (⟨3.0864098394, 2.0821938440, 1.6178866805⟩,
                  ⟨5.5921510077, 4.0671757150, 3.2672611269⟩)
  | "K" => some (⟨0.0640493070, 0.0464100621, 0.0381842017⟩,
                 ⟨2.1042155920, 1.3489364357, 0.9132113889⟩)
  | "Li" => some (⟨0.2657871942, 0.1956102432, 0.2209198538⟩,
                  ⟨3.5401743407, 2.3111306542, 1.6685930000⟩)
  | "MgO" => some (⟨2.0895885542, 1.6507224525, 1.5948759692⟩,
                   ⟨0.0000000000, -0.0000000000, 0.0000000000⟩)
  | "Mo" => some (⟨4.4837010280, 3.5254578255, 2.7760769438⟩,
                  ⟨4.1111307988, 3.4208716252, 3.1506031404⟩)
  | "Na" => some (⟨0.0602665320, 0.0561412435, 0.0619909494⟩,
                  ⟨3.1792906496, 2.1124800781, 1.5790940266⟩)
  | "Nb" => some (⟨3.4201353595, 2.7901921379, 2.3955856658⟩,
                  ⟨3.4413817900, 2.7376437930, 2.5799132708⟩)
  | "Ni" => some (⟨2.3672753521, 1.6633583302, 1.4670554172⟩,
                  ⟨4.4988329911, 3.0501643957, 2.3454274399⟩)
  | "Rh" => some (⟨2.5857954933, 1.8601866068, 1.5544279524⟩,
                  ⟨6.7822927110, 4.7029501026, 3.9760892461⟩)
  | "Se-e" => some (⟨5.7242724833, 4.1653992967, 4.0816099264⟩,
                    ⟨0.8713747439, 1.1052845009, 1.5647788766⟩)
  | "Se" => some (⟨4.0592611085, 2.8426947380, 2.8207582835⟩,
                  ⟨0.7543791750, 0.6385150558, 0.5215872029⟩)
  | "SiC" => some (⟨3.1723450205, 2.5259677964, 2.4793623897⟩,
                   ⟨0.0000007284, -0.0000006859, 0.0000100150⟩)
  | "SnTe" => some (⟨4.5251865890, 1.9811525984, 1.2816819226⟩,
                    ⟨0.0000000000, 0.0000000000, 0.0000000000⟩)
  | "Ta" => some (⟨2.0625846607, 2.3930915569, 2.6280684948⟩,
                  ⟨2.4080467973, 1.7413705864, 1.9470377016⟩)
  | "Te-e" => some (⟨7.5090397678, 4.2964603080, 2.3698732430⟩,
                    ⟨5.5842076830, 4.9476231084, 3.9975145063⟩)
  | "Te" => some (⟨7.3908396088, 4.4821028985, 2.6370708478⟩,
                  ⟨3.2561412892, 3.5273908133, 3.2921683116⟩)
  | "ThF4" => some (⟨1.8307187117, 1.4422274283, 1.3876488528⟩,
                    ⟨0.0000000000, 0.0000000000, 0.0000000000⟩)
  | "TiC" => some (⟨3.7004673762, 2.8374356509, 2.5823030278⟩,
                   ⟨3.2656905818, 2.3515586388, 2.1727857800⟩)
  | "TiN" => some (⟨1.6484691607, 1.1504482522, 1.3797795097⟩,
                   ⟨3.3684596226, 1.9434888540, 1.1020123347⟩)
  | "TiO2-e" => some (⟨3.1065574823, 2.5131551146, 2.5823844157⟩,
                      ⟨0.0000289537, -0.0000251484, 0.0001775555⟩)
  | "TiO2" => some (⟨3.4566203131, 2.8017076558, 2.9051485020⟩,
                    ⟨0.0001026662, -0.0000897534, 0.0006356902⟩)
  | "VC" => some (⟨3.6575665991, 2.7527298065, 2.5326814570⟩,
                  ⟨3.0683516659, 2.1986687713, 1.9631816252⟩)
  | "VN" => some (⟨2.8656011588, 2.1191817791, 1.9400767149⟩,
                  ⟨3.0323264950, 2.0561075580, 1.6162930914⟩)
  | "V" => some (⟨4.2775126218, 3.5131538236, 2.7611257461⟩,
                 ⟨3.4911844504, 2.8893580874, 3.1116965117⟩)
  | "W" => some (⟨4.3707029924, 3.3002972445, 2.9982666528⟩,
                 ⟨3.5006778591, 2.6048652781, 2.2731930614⟩)
  | _ => none

/-! Model of the few `std::filesystem::path` operations the loader uses. -/

/-- `fs::path::filename()`: the component after the last `/`. -/
def pathLastComponent (l : List Char) : List Char :=
  (l.reverse.takeWhile (fun c => c ≠ '/')).reverse

/-- `fs::path::extension()` of a filename component: the suffix from the last
period, empty when there is no period, the period is the leading character,
or the component is `.` or `..`. -/
def pathExtension (l : List Char) : List Char :=
  if l = ['.'] ∨ l = ['.', '.'] then []
  else
    match (l.reverse.span (fun c => c ≠ '.')).1, (l.reverse.span (fun c => c ≠ '.')).2 with
    | _, [] => []
    | _, [_] => []
    | e, _ :: _ :: _ => '.' :: e.reverse

/-- `fs::path::replace_extension("")`: the component with its extension
removed (the stem). -/
def pathStem (l : List Char) : List Char :=
  if l = ['.'] ∨ l = ['.', '.'] then l
  else
    match (l.reverse.span (fun c => c ≠ '.')).2 with
    | [] => l
    | [_] => l
    | _ :: rest => rest.reverse

/-- The quoted-filename branch of the `spectrum` parameter type in
`parse_pbrt_params` (`yocto_modelio.cpp`): `.spd` files named `SHPS` resolve
to white, `.eta.spd` / `.k.spd` files resolve through `get_pbrt_etak`, other
`.spd` files fail with "unknown spectrum file", everything else with
"unsupported spectrum format". -/
def spectrum_filename_resolve (filename : String) : Except PErr Vec3 :=
  let filenamep := pathLastComponent filename.toList
  if pathExtension filenamep = ".spd".toList then
    let p1 := pathStem filenamep
    if p1 = "SHPS".toList then .ok ⟨1, 1, 1⟩
    else if pathExtension p1 = ".eta".toList then
      match get_pbrt_etak (String.mk (pathStem p1)) with
      | some ek => .ok ek.1
      | none => .error .outOfRange
    else if pathExtension p1 = ".k".toList then
      match get_pbrt_etak (String.mk (pathStem p1)) with
      | some ek => .ok ek.2
      | none => .error .outOfRange
    else .error .unknownSpectrumFile
  else .error .unsupportedSpectrum

def Vec3.scale (v : Vec3) (q : ℚ) : Vec3 := ⟨v.x * q, v.y * q, v.z * q⟩

/-- The `"type name" value` dispatch of `parse_pbrt_params`
(`yocto_modelio.cpp`), for one parameter whose header has already been split
into `type` and `name`.  `blackbody_to_rgb` is the temperature→RGB conversion
of the missing `yocto_math.h`, passed as a parameter (modelled from the spec:
"`blackbody` is eagerly converted to a `color` value using a temperature→RGB
conversion plus a scale factor supplied as the second array element"). -/
def parse_pbrt_typed (blackbody_to_rgb : ℚ → Vec3) (type name : String)
    (ts : List PTok) : Except PErr (pbrt_value × List PTok) :=
  if type = "float" then
    match parse_pbrt_pvalues_f ts with
    | .error e => .error e
    | .ok (v, vs, rest) =>
      .ok ({ name := name, type := .real, value1f := v, vector1f := vs }, rest)
  else if type = "integer" then
    match parse_pbrt_pvalues_i ts with
    | .error e => .error e
    | .ok (v, vs, rest) =>
      .ok ({ name := name, type := .integer, value1i := v, vector1i := vs }, rest)
  else if type = "string" then
    match parse_pbrt_pvalues_s ts with
    | .error e => .error e
    | .ok (v, vs, rest) =>
      if vs.isEmpty then
        .ok ({ name := name, type := .string, value1s := v }, rest)
      else .error .stringArray
  else if type = "bool" then
    match parse_pbrt_pvalues_s ts with
    | .error e => .error e
    | .ok (v, vs, rest) =>
      if vs.isEmpty then
        .ok ({ name := name, type := .boolean, value1b := v = "true" }, rest)
      else .error .stringArray
  else if type = "texture" then
    match parse_pbrt_pvalues_s ts with
    | .error e => .error e
    | .ok (v, vs, rest) =>
      if vs.isEmpty then
        .ok ({ name := name, type := .texture, value1s := v }, rest)
      else .error .stringArray
  else if type = "point" ∨ type = "point3" then
    match parse_pbrt_pvalues_v3 ts with
    | .error e => .error e
    | .ok (v, vs, rest) =>
      .ok ({ name := name, type := .point, value3f := v, vector3f := vs }, rest)
  else if type = "normal" ∨ type = "normal3" then
    match parse_pbrt_pvalues_v3 ts with
    | .error e => .error e
    | .ok (v, vs, rest) =>
      .ok ({ name := name, type := .normal, value3f := v, vector3f := vs }, rest)
  else if type = "vector" ∨ type = "vector3" then
    match parse_pbrt_pvalues_v3 ts with
    | .error e => .error e
    | .ok (v, vs, rest) =>
      .ok ({ name := name, type := .vector, value3f := v, vector3f := vs }, rest)
  else if type = "point2" then
    match parse_pbrt_pvalues_v2 ts with
    | .error e => .error e
    | .ok (v, vs, rest) =>
      .ok ({ name := name, type := .point2, value2f := v, vector2f := vs }, rest)
  else if type = "vector2" then
    match parse_pbrt_pvalues_v2 ts with
    | .error e => .error e
    | .ok (v, vs, rest) =>
      .ok ({ name := name, type := .vector2, value2f := v, vector2f := vs }, rest)
  else if type = "blackbody" then
    match parse_pbrt_pvalues_v2 ts with
    | .error e => .error e
    | .ok (v, vs, rest) =>
      if vs.isEmpty then
        .ok ({ name := name, type := .color,
               value3f := (blackbody_to_rgb v.1).scale v.2 }, rest)
      else .error .badProperty
  else if type = "color" ∨ type = "rgb" then
    match parse_pbrt_pvalues_v3 ts with
    | .error e => .error e
    | .ok (v, vs, rest) =>
      .ok ({ name := name, type := .color, value3f := v, vector3f := vs }, rest)
  else if type = "xyz" then
    match parse_pbrt_pvalues_v3 ts with
    | .error e => .error e
    | .ok _ => .error .xyzConversion
  else if type = "spectrum" then
    match ts with
    | .str f :: rest =>
      match spectrum_filename_resolve f with
      | .error e => .error e
      | .ok c => .ok ({ name := name, type := .color, value3f := c }, rest)
    | .lbrack :: .str _ :: _ =>
      -- is_string is detected through the bracket, but the value is then read
      -- with the plain quoted-string parser, which rejects the leading `[`
      .error .cannotParseValue
    | _ =>
      match parse_pbrt_pvalues_f ts with
      | .error e => .error e
      | .ok (v, vs, rest) =>
        .ok ({ name := name, type := .spectrum, value1f := v, vector1f := vs }, rest)
  else .error .unknownType

/-- The `type_labels` table of `write_pbrt_values` (`yocto_modelio.cpp`). -/
def type_label : pbrt_value_type → String
  | .real => "float"
  | .integer => "integer"
  | .boolean => "bool"
  | .string => "string"
  | .point => "point"
  | .normal => "normal"
  | .vector => "vector"
  | .texture => "texture"
  | .color => "rgb"
  | .point2 => "point2"
  | .vector2 => "vector2"
  | .spectrum => "spectrum"

/-- The per-value `switch` of `write_pbrt_values` (`yocto_modelio.cpp`),
emitting the value region of one parameter as tokens.  Two oddities of the
source are preserved: the `integer` case tests `vector1f` (not `vector1i`)
to decide between array and scalar form, and the scalar `point2`/`vector2`
case prints the `x` component twice. -/
def write_pbrt_value (v : pbrt_value) : List PTok :=
  match v.type with
  | .real =>
    if ¬v.vector1f.isEmpty then
      [.lbrack] ++ v.vector1f.map PTok.num ++ [.rbrack]
    else [.num v.value1f]
  | .integer =>
    if ¬v.vector1f.isEmpty then
      [.lbrack] ++ v.vector1i.map (fun i => PTok.num i) ++ [.rbrack]
    else [.num v.value1i]
  | .boolean => [.str (if v.value1b then "true" else "false")]
  | .string => [.str v.value1s]
  | .point | .vector | .normal | .color =>
    if ¬v.vector3f.isEmpty then
      [.lbrack] ++ (v.vector3f.flatMap fun w => [PTok.num w.x, .num w.y, .num w.z]) ++ [.rbrack]
    else [.lbrack, .num v.value3f.x, .num v.value3f.y, .num v.value3f.z, .rbrack]
  | .spectrum => [.lbrack] ++ v.vector1f.map PTok.num ++ [.rbrack]
  | .texture => [.str v.value1s]
  | .point2 | .vector2 =>
    if ¬v.vector2f.isEmpty then
      [.lbrack] ++ (v.vector2f.flatMap fun w => [PTok.num w.1, .num w.2]) ++ [.rbrack]
    else [.lbrack, .num v.value2f.1, .num v.value2f.1, .rbrack]

/-! ## The command interpreter of `load_pbrt` (`yocto_modelio.cpp`)

The statement stream is embedded as a list of commands with already-parsed
payloads (the command reader and parameter parser sit below this level; file
inclusion, which only concatenates statement streams, is modelled separately).
The trigonometric frames built by `Rotate`/`LookAt` are carried as payloads,
since they are irrational; `Scale`/`Translate` frames are built in the model.
`unordered_map`s become association lists with `operator[]`-style insert. -/

def lookupA {α : Type _} : List (String × α) → String → Option α
  | [], _ => none
  | (k', v) :: rest, k => if k' = k then some v else lookupA rest k

def insertA {α : Type _} : List (String × α) → String → α → List (String × α)
  | [], k, v => [(k, v)]
  | (k', v') :: rest, k, v =>
    if k' = k then (k, v) :: rest else (k', v') :: insertA rest k v

/-- `objects[k].push_back(i)`: default-insert then append. -/
def appendA : List (String × List Nat) → String → Nat → List (String × List Nat)
  | [], k, i => [(k, [i])]
  | (k', v) :: rest, k, i =>
    if k' = k then (k', v ++ [i]) :: rest else (k', v) :: appendA rest k i

def modifyIdx {α : Type _} : List α → Nat → (α → α) → List α
  | [], _, _ => []
  | a :: rest, 0, f => f a :: rest
  | a :: rest, n + 1, f => a :: modifyIdx rest n f

/-- `pbrt_context` of `yocto_modelio.cpp`: one graphics-state stack record. -/
structure pbrt_context where
  transform_start : Frame := Frame.identity
  transform_end : Frame := Frame.identity
  material : String := ""
  arealight : String := ""
  medium_interior : String := ""
  medium_exterior : String := ""
  reverse : Bool := false
  active_transform_start : Bool := true
  active_transform_end : Bool := true
  last_lookat_distance : ℚ := 0
  last_film_aspect : ℚ := 0
deriving DecidableEq

/-- Generic `{type, values}` record: the loader only ever writes these two
fields of `pbrt_integrator`, `pbrt_sampler`, `pbrt_filter`, `pbrt_film` and
`pbrt_accelerator`. -/
structure pbrt_stmt_record where
  type : String := ""
  values : List pbrt_value := []
deriving DecidableEq

structure pbrt_camera where
  type : String := ""
  values : List pbrt_value := []
  frame : Frame := Frame.identity
  frend : Frame := Frame.identity
  focus : ℚ := 0
  aspect : ℚ := 0
deriving DecidableEq

structure pbrt_texture where
  name : String := ""
  type : String := ""
  values : List pbrt_value := []
deriving DecidableEq

structure pbrt_material where
  name : String := ""
  type : String := ""
  values : List pbrt_value := []
deriving DecidableEq

structure pbrt_medium where
  name : String := ""
  type : String := ""
  values : List pbrt_value := []
deriving DecidableEq

structure pbrt_shape where
  type : String := ""
  values : List pbrt_value := []
  frame : Frame := Frame.identity
  frend : Frame := Frame.identity
  material : String := ""
  arealight : String := ""
  interior : String := ""
  exterior : String := ""
  is_instanced : Bool := false
  instance_frames : List Frame := []
  instance_frends : List Frame := []
deriving DecidableEq

structure pbrt_arealight where
  name : String := ""
  type : String := ""
  values : List pbrt_value := []
  frame : Frame := Frame.identity
  frend : Frame := Frame.identity
deriving DecidableEq

structure pbrt_light where
  type : String := ""
  values : List pbrt_value := []
  frame : Frame := Frame.identity
  frend : Frame := Frame.identity
deriving DecidableEq

structure pbrt_environment where
  type : String := ""
  values : List pbrt_value := []
  frame : Frame := Frame.identity
  frend : Frame := Frame.identity
deriving DecidableEq

/-- The output `pbrt_model` (the lists the loader appends to). -/
structure pbrt_model where
  cameras : List pbrt_camera := []
  textures : List pbrt_texture := []
  materials : List pbrt_material := []
  mediums : List pbrt_medium := []
  shapes : List pbrt_shape := []
  arealights : List pbrt_arealight := []
  lights : List pbrt_light := []
  environments : List pbrt_environment := []
  integrators : List pbrt_stmt_record := []
  samplers : List pbrt_stmt_record := []
  filters : List pbrt_stmt_record := []
  films : List pbrt_stmt_record := []
  accelerators : List pbrt_stmt_record := []
deriving DecidableEq

/-- The whole mutable state of `load_pbrt`: the graphics-state stack (list
head = `stack.back()`), the named-entity tables, the current object group and
the output model.  `material_id` / `arealight_id` embed the function-static
anonymous-name counters. -/
structure load_pbrt_state where
  stack : List pbrt_context := [{}]
  cur_object : String := ""
  coordsys : List (String × (Frame × Frame)) := []
  objects : List (String × List Nat) := []
  material_id : Nat := 0
  arealight_id : Nat := 0
  pbrt : pbrt_model := {}
deriving DecidableEq

/-- The initial parser state (`stack.emplace_back()` before the loop). -/
def load_pbrt_init : load_pbrt_state := {}

/-- `set_transform` helper of `load_pbrt`. -/
def set_transform (ctx : pbrt_context) (xform : Frame) : pbrt_context :=
  let ctx1 :=
    if ctx.active_transform_start then { ctx with transform_start := xform } else ctx
  if ctx1.active_transform_end then { ctx1 with transform_end := xform } else ctx1

/-- `concat_transform` helper of `load_pbrt` (right-multiplication). -/
def concat_transform (ctx : pbrt_context) (xform : Frame) : pbrt_context :=
  let ctx1 :=
    if ctx.active_transform_start then
      { ctx with transform_start := ctx.transform_start.mul xform }
    else ctx
  if ctx1.active_transform_end then
    { ctx1 with transform_end := ctx1.transform_end.mul xform }
  else ctx1

/-- `scaling_frame` (modelled from the spec: a diagonal scale frame). -/
def scaling_frame (v : Vec3) : Frame :=
  ⟨⟨v.x, 0, 0⟩, ⟨0, v.y, 0⟩, ⟨0, 0, v.z⟩, ⟨0, 0, 0⟩⟩

/-- `translation_frame` (modelled from the spec: identity rotation plus a
translation). -/
def translation_frame (v : Vec3) : Frame :=
  ⟨⟨1, 0, 0⟩, ⟨0, 1, 0⟩, ⟨0, 0, 1⟩, v⟩

/-- The statement keywords dispatched by `load_pbrt`, with parsed payloads.
`rotate` carries `rotation_frame(axis, radians(angle))` and `lookAt` carries
`inverse(lookat_frame(from, to, up, true))` and `length(from - to)`, the
trigonometric values the source computes from the raw numbers. -/
inductive pbrt_cmd where
  | worldBegin
  | worldEnd
  | attributeBegin
  | attributeEnd
  | transformBegin
  | transformEnd
  | objectBegin (name : String)
  | objectEnd
  | objectInstance (name : String)
  | activeTransform (name : String)
  | setTransform (xf : Frame)
  | concatTransform (xf : Frame)
  | scale (v : Vec3)
  | translate (v : Vec3)
  | rotate (xf : Frame)
  | lookAt (xf : Frame) (dist : ℚ)
  | reverseOrientation
  | coordinateSystem (name : String)
  | coordSysTransform (name : String)
  | integrator (type : String) (values : List pbrt_value)
  | sampler (type : String) (values : List pbrt_value)
  | pixelFilter (type : String) (values : List pbrt_value)
  | film (type : String) (values : List pbrt_value)
  | accelerator (type : String) (values : List pbrt_value)
  | camera (type : String) (values : List pbrt_value)
  | texture (name comptype type : String) (values : List pbrt_value)
  | material (type : String) (values : List pbrt_value)
  | makeNamedMaterial (name : String) (values : List pbrt_value)
  | namedMaterial (name : String)
  | shape (type : String) (values : List pbrt_value)
  | areaLightSource (type : String) (values : List pbrt_value)
  | lightSource (type : String) (values : List pbrt_value)
  | makeNamedMedium (name : String) (values : List pbrt_value)
  | mediumInterface (interior exterior : String)
  | unknown (cmd : String)
deriving DecidableEq

/-- The `type` extraction loop of `MakeNamedMaterial` / `MakeNamedMedium`:
the last `"type"`-named value wins. -/
def findTypeString (values : List pbrt_value) : String :=
  values.foldl (fun acc v => if v.name = "type" then v.value1s else acc) ""

/-- One iteration of the command dispatch of `load_pbrt`
(`yocto_modelio.cpp`, the `if (cmd == ...)` chain). -/
def load_pbrt_step (s : load_pbrt_state) : pbrt_cmd → Except PErr load_pbrt_state
  | .worldBegin => .ok { s with stack := {} :: s.stack }
  | .worldEnd =>
    match s.stack with
    | [] => .error .badStack
    | _ :: rest =>
      if rest.length = 1 then .ok { s with stack := rest } else .error .badStackWorld
  | .attributeBegin =>
    match s.stack with
    | [] => .error .ubEmptyTop
    | c :: rest => .ok { s with stack := c :: c :: rest }
  | .attributeEnd =>
    match s.stack with
    | [] => .error .badStack
    | _ :: rest => .ok { s with stack := rest }
  | .transformBegin =>
    match s.stack with
    | [] => .error .ubEmptyTop
    | c :: rest => .ok { s with stack := c :: c :: rest }
  | .transformEnd =>
    match s.stack with
    | [] => .error .badStack
    | _ :: rest => .ok { s with stack := rest }
  | .objectBegin name =>
    match s.stack with
    | [] => .error .ubEmptyTop
    | c :: rest =>
      .ok { s with stack := c :: c :: rest, cur_object := name,
                   objects := insertA s.objects name [] }
  | .objectEnd =>
    match s.stack with
    | [] => .error .ubEmptyPop
    | _ :: rest => .ok { s with stack := rest, cur_object := "" }
  | .objectInstance name =>
    match lookupA s.objects name with
    | none => .error .unknownObject
    | some ids =>
      match s.stack with
      | [] => if ids.isEmpty then .ok s else .error .ubEmptyTop
      | c :: _ =>
        .ok { s with pbrt := { s.pbrt with
          shapes := ids.foldl (fun shs i => modifyIdx shs i (fun sh =>
            { sh with
              instance_frames := sh.instance_frames ++ [c.transform_start],
              instance_frends := sh.instance_frends ++ [c.transform_end] }))
            s.pbrt.shapes } }
  | .activeTransform name =>
    if name = "StartTime" ∨ name = "EndTime" ∨ name = "All" then
      match s.stack with
      | [] => .error .ubEmptyTop
      | c :: rest =>
        let c' :=
          if name = "StartTime" then
            { c with active_transform_start := true, active_transform_end := false }
          else if name = "EndTime" then
            { c with active_transform_start := false, active_transform_end := true }
          else
            { c with active_transform_start := true, active_transform_end := true }
        .ok { s with stack := c' :: rest }
    else .error .badActiveTransform
  | .setTransform xf =>
    match s.stack with
    | [] => .error .ubEmptyTop
    | c :: rest => .ok { s with stack := set_transform c xf :: rest }
  | .concatTransform xf =>
    match s.stack with
    | [] => .error .ubEmptyTop
    | c :: rest => .ok { s with stack := concat_transform c xf :: rest }
  | .scale v =>
    match s.stack with
    | [] => .error .ubEmptyTop
    | c :: rest => .ok { s with stack := concat_transform c (scaling_frame v) :: rest }
  | .translate v =>
    match s.stack with
    | [] => .error .ubEmptyTop
    | c :: rest => .ok { s with stack := concat_transform c (translation_frame v) :: rest }
  | .rotate xf =>
    match s.stack with
    | [] => .error .ubEmptyTop
    | c :: rest => .ok { s with stack := concat_transform c xf :: rest }
  | .lookAt xf dist =>
    match s.stack with
    | [] => .error .ubEmptyTop
    | c :: rest =>
      .ok { s with stack := { concat_transform c xf with last_lookat_distance := dist } :: rest }
  | .reverseOrientation =>
    match s.stack with
    | [] => .error .ubEmptyTop
    | c :: rest => .ok { s with stack := { c with reverse := !c.reverse } :: rest }
  | .coordinateSystem name =>
    match s.stack with
    | [] => .error .ubEmptyTop
    | c :: _ =>
      .ok { s with coordsys := insertA s.coordsys name (c.transform_start, c.transform_end) }
  | .coordSysTransform name =>
    match lookupA s.coordsys name with
    | none => .ok s
    | some tf =>
      match s.stack with
      | [] => .error .ubEmptyTop
      | c :: rest =>
        .ok { s with stack :=
          { c with transform_start := tf.1, transform_end := tf.2 } :: rest }
  | .integrator type values =>
    .ok { s with pbrt := { s.pbrt with integrators := s.pbrt.integrators ++ [⟨type, values⟩] } }
  | .sampler type values =>
    .ok { s with pbrt := { s.pbrt with samplers := s.pbrt.samplers ++ [⟨type, values⟩] } }
  | .pixelFilter type values =>
    .ok { s with pbrt := { s.pbrt with filters := s.pbrt.filters ++ [⟨type, values⟩] } }
  | .film type values =>
    let films' := s.pbrt.films ++ [⟨type, values⟩]
    let xres := values.foldl (fun a v => if v.name = "xresolution" then v.value1i else a) 0
    let yres := values.foldl (fun a v => if v.name = "yresolution" then v.value1i else a) 0
    if xres ≠ 0 ∧ yres ≠ 0 then
      match s.stack with
      | [] => .error .ubEmptyTop
      | c :: rest =>
        let aspect : ℚ := (xres : ℚ) / (yres : ℚ)
        let c' := { c with last_film_aspect := aspect }
        let pbrt' := { s.pbrt with
          films := films',
          cameras := s.pbrt.cameras.map (fun cam => { cam with aspect := aspect }) }
        .ok { s with stack := c' :: rest, pbrt := pbrt' }
    else .ok { s with pbrt := { s.pbrt with films := films' } }
  | .accelerator type values =>
    .ok { s with pbrt := { s.pbrt with accelerators := s.pbrt.accelerators ++ [⟨type, values⟩] } }
  | .camera type values =>
    match s.stack with
    | [] => .error .ubEmptyTop
    | c :: _ =>
      .ok { s with pbrt := { s.pbrt with cameras := s.pbrt.cameras ++
        [{ type := type, values := values, frame := c.transform_start,
           frend := c.transform_end, focus := c.last_lookat_distance,
           aspect := c.last_film_aspect }] } }
  | .texture name _comptype type values =>
    .ok { s with pbrt := { s.pbrt with textures := s.pbrt.textures ++
      [{ name := name, type := type, values := values }] } }
  | .material type values =>
    -- the static counter is consumed while the auto-name is built, before the
    -- empty-type test, so it advances even when no material is created
    let name := "material_" ++ toString s.material_id
    match s.stack with
    | [] => .error .ubEmptyTop
    | c :: rest =>
      if type = "" then
        .ok { s with
          material_id := s.material_id + 1,
          stack := { c with material := "" } :: rest }
      else
        let pbrt' := { s.pbrt with materials := s.pbrt.materials ++
          [{ name := name, type := type, values := values }] }
        .ok { s with
          material_id := s.material_id + 1,
          stack := { c with material := name } :: rest,
          pbrt := pbrt' }
  | .makeNamedMaterial name values =>
    .ok { s with pbrt := { s.pbrt with materials := s.pbrt.materials ++
      [{ name := name, type := findTypeString values, values := values }] } }
  | .namedMaterial name =>
    match s.stack with
    | [] => .error .ubEmptyTop
    | c :: rest => .ok { s with stack := { c with material := name } :: rest }
  | .shape type values =>
    match s.stack with
    | [] => .error .ubEmptyTop
    | c :: _ =>
      let base : pbrt_shape :=
        { type := type, values := values, frame := c.transform_start,
          frend := c.transform_end, material := c.material,
          arealight := c.arealight, interior := c.medium_interior,
          exterior := c.medium_exterior }
      if s.cur_object ≠ "" then
        .ok { s with
          pbrt := { s.pbrt with shapes := s.pbrt.shapes ++ [{ base with is_instanced := true }] },
          objects := appendA s.objects s.cur_object s.pbrt.shapes.length }
      else
        .ok { s with pbrt := { s.pbrt with shapes := s.pbrt.shapes ++
          [{ base with instance_frames := [Frame.identity],
                       instance_frends := [Frame.identity] }] } }
  | .areaLightSource type values =>
    match s.stack with
    | [] => .error .ubEmptyTop
    | c :: rest =>
      let name := "arealight_" ++ toString s.arealight_id
      let pbrt' := { s.pbrt with arealights := s.pbrt.arealights ++
        [{ name := name, type := type, values := values,
           frame := c.transform_start, frend := c.transform_end }] }
      .ok { s with
        arealight_id := s.arealight_id + 1,
        stack := { c with arealight := name } :: rest,
        pbrt := pbrt' }
  | .lightSource type values =>
    match s.stack with
    | [] => .error .ubEmptyTop
    | c :: _ =>
      if type = "infinite" then
        .ok { s with pbrt := { s.pbrt with environments := s.pbrt.environments ++
          [{ type := type, values := values, frame := c.transform_start,
             frend := c.transform_end }] } }
      else
        .ok { s with pbrt := { s.pbrt with lights := s.pbrt.lights ++
          [{ type := type, values := values, frame := c.transform_start,
             frend := c.transform_end }] } }
  | .makeNamedMedium name values =>
    .ok { s with pbrt := { s.pbrt with mediums := s.pbrt.mediums ++
      [{ name := name, type := findTypeString values, values := values }] } }
  | .mediumInterface interior exterior =>
    match s.stack with
    | [] => .error .ubEmptyTop
    | c :: rest =>
      .ok { s with stack :=
        { c with medium_interior := interior, medium_exterior := exterior } :: rest }
  | .unknown _ => .error .unknownCommand

/-- Sequential execution of a statement stream (the parse loop of
`load_pbrt`): each statement is fully applied before the next is read. -/
def load_pbrt_exec : List pbrt_cmd → load_pbrt_state → Except PErr load_pbrt_state
  | [], s => .ok s
  | c :: rest, s =>
    match load_pbrt_step s c with
    | .error e => .error e
    | .ok s' => load_pbrt_exec rest s'

/-! ## `add_pbrt_shape`'s derived-material cache (`yocto_sceneio.cpp`) -/

/-- `yocto_material`, restricted to the two fields `get_material` writes
(`uri` and `emission`); all other fields are copied through unchanged. -/
structure yocto_material where
  uri : String := ""
  emission : Vec3 := Vec3.zero
deriving DecidableEq

/-- The state threaded through `get_material`: the `(material, arealight)` →
index cache `ammap`, the scene's material list, and the function-static
`light_id` counter used to uniquify derived-material names. -/
structure get_material_state where
  ammap : List (String × Nat) := []
  materials : List yocto_material := []
  light_id : Nat := 0
deriving DecidableEq

/-- `get_material` of `add_pbrt_shape` (`yocto_sceneio.cpp`): resolve the
current `(material, arealight)` pair to a scene-material index, creating the
derived base-plus-emission material once per compound key
`material + "_______" + arealight` and caching its index in `ammap`.
`.error .outOfRange` models the `std::out_of_range` thrown by `mmap.at` /
`amap.at` on an unregistered name. -/
def get_material (mmap : List (String × yocto_material))
    (amap : List (String × Vec3)) (st : get_material_state)
    (ctx_material ctx_arealight : String) :
    Except PErr (Nat × get_material_state) :=
  let lookup_name := ctx_material ++ "_______" ++ ctx_arealight
  match lookupA st.ammap lookup_name with
  | some idx => .ok (idx, st)
  | none =>
    match lookupA mmap ctx_material with
    | none => .error .outOfRange
    | some material =>
      match lookupA amap ctx_arealight with
      | none => .error .outOfRange
      | some em =>
        let md :=
          if em ≠ Vec3.zero then
            ({ material with
                emission := em,
                uri := material.uri ++ "_arealight_" ++ toString st.light_id },
             st.light_id + 1)
          else (material, st.light_id)
        let idx := st.materials.length
        .ok (idx,
          { ammap := insertA st.ammap lookup_name idx,
            materials := st.materials ++ [md.1], light_id := md.2 })

/-! ## `Include` path resolution and the file-cursor stack -/

/-- `fs::path::parent_path()`: everything before the last `/` (the root `/`
is kept, a path without separator has an empty parent). -/
def pathParent (l : List Char) : List Char :=
  match l.reverse.dropWhile (fun c => c ≠ '/') with
  | [] => []
  | [_] => ['/']
  | _ :: rest => rest.reverse

/-- `fs::path::operator/`: an absolute right side replaces the left side,
otherwise the two are joined with a separator. -/
def pathJoin (p q : List Char) : List Char :=
  match q with
  | '/' :: _ => q
  | _ =>
    if p = [] then q
    else if p.getLast? = some '/' then p ++ q
    else p ++ '/' :: q

/-- The path opened by the `Include` branch of `load_pbrt`
(`yocto_modelio.cpp`): `fs::path(filename).parent_path() / filename`, where
`filename` is the Include *argument* itself (the local variable shadows the
function's `filename` parameter). -/
def include_path_code (arg : String) : String :=
  String.mk (pathJoin (pathParent arg.toList) arg.toList)

/-- The path opened by the `include` case of `load_pbrt`
(`yocto_sceneio.cpp`): the parent of the *top-level* scene file joined with
the Include argument, whichever file is currently active. -/
def include_path_sceneio (root_file arg : String) : String :=
  String.mk (pathJoin (pathParent root_file.toList) arg.toList)

/-- Modelled from the spec: "`Include` pushes a new cursor (path resolved
relative to the *including* file's directory)" — the parent of the currently
active source file joined with the Include argument. -/
def include_path_spec (current_file arg : String) : String :=
  String.mk (pathJoin (pathParent current_file.toList) arg.toList)

/-- A statement as seen by the file loop: either an ordinary statement
(abstracted to a tag) or an `Include`. -/
inductive inc_stmt where
  | plain (tag : Nat)
  | inc (arg : String)
deriving DecidableEq

/-- One open-file cursor of the include stack (`files` in `load_pbrt`). -/
structure file_cursor where
  path : String
  pending : List inc_stmt
deriving DecidableEq

/-- One step of the nested file loops of `load_pbrt` (`yocto_modelio.cpp`):
the back cursor is read; EOF pops it, `Include` pushes a cursor for
`include_path_code` of the argument, and a plain statement is consumed and
emitted.  `fs` maps a path to a file's statements (`none` = missing file). -/
def include_step (fs : String → Option (List inc_stmt)) :
    List file_cursor → Option (List file_cursor × Option Nat)
  | [] => none
  | cur :: below =>
    match cur.pending with
    | [] => some (below, none)
    | .plain t :: more => some ({ cur with pending := more } :: below, some t)
    | .inc arg :: more =>
      match fs (include_path_code arg) with
      | some stmts =>
        some (⟨include_path_code arg, stmts⟩ :: { cur with pending := more } :: below, none)
      | none => none

/-- Run the file loop to completion (with fuel), collecting the order in
which plain statements are handed to the command interpreter. -/
def include_run (fs : String → Option (List inc_stmt)) :
    Nat → List file_cursor → List Nat
  | 0, _ => []
  | fuel + 1, stack =>
    match include_step fs stack with
    | none => []
    | some (stack', some t) => t :: include_run fs fuel stack'
    | some (stack', none) => include_run fs fuel stack'

/-! ## Helper lemmas -/

theorem lookupA_insertA_self {α : Type _} (m : List (String × α)) (k : String) (v : α) :
    lookupA (insertA m k v) k = some v := by
  induction m with
  | nil => simp [insertA, lookupA]
  | cons p rest ih =>
    by_cases h : p.1 = k
    · cases p; simp_all [insertA, lookupA]
    · cases p; simp_all [insertA, lookupA]

theorem load_pbrt_exec_append (l₁ l₂ : List pbrt_cmd) (s : load_pbrt_state) :
    load_pbrt_exec (l₁ ++ l₂) s =
      match load_pbrt_exec l₁ s with
      | .error e => .error e
      | .ok s' => load_pbrt_exec l₂ s' := by
  induction l₁ generalizing s with
  | nil => simp [load_pbrt_exec]
  | cons c rest ih =>
    simp only [List.cons_append, load_pbrt_exec]
    cases load_pbrt_step s c with
    | error e => rfl
    | ok s' => exact ih s'

/-! ## Claims -/

/-- C1, counterexample: executing `NamedMaterial "ghost"` with no prior
`MakeNamedMaterial "ghost"` (the initial state has an empty material list)
does not fail: the parse succeeds and the unknown name is simply installed as
the current material, contradicting "fails the parse with an `UnknownEntity`
error". -/
theorem named_material_unknown_accepted :
    load_pbrt_exec [.namedMaterial "ghost"] load_pbrt_init =
      .ok { load_pbrt_init with stack := [{ material := "ghost" }] } := by
  rfl

/-- C1 (amended): `NamedMaterial` performs no lookup and never fails (given a
nonempty stack): it records the name as the scope's current material
unchanged.  An unknown name surfaces only later, in the sceneio pipeline,
when a `Shape` resolves its material through `get_material` and the
`mmap.at` lookup throws; in the modelio loader it is never checked at all. -/
theorem named_material_no_lookup (n : String) (s : load_pbrt_state)
    (t : pbrt_context) (rest : List pbrt_context) (hs : s.stack = t :: rest) :
    load_pbrt_step s (.namedMaterial n) =
      .ok { s with stack := { t with material := n } :: rest } ∧
    ∀ (mmap : List (String × yocto_material)) (amap : List (String × Vec3))
      (st : get_material_state) (a : String),
      lookupA st.ammap (n ++ "_______" ++ a) = none →
      lookupA mmap n = none →
      get_material mmap amap st n a = .error .outOfRange := by
  constructor
  · simp [load_pbrt_step, hs]
  · intro mmap amap st a hmiss hm
    simp [get_material, hmiss, hm]

/-- Witness for C1's amended theorem at a concrete input. -/
theorem named_material_no_lookup_witness :
    load_pbrt_step load_pbrt_init (.namedMaterial "ghost") =
      .ok { load_pbrt_init with stack := [{ material := "ghost" }] } ∧
    get_material [] [] {} "ghost" "" = .error .outOfRange := by
  have h := named_material_no_lookup "ghost" load_pbrt_init {} [] rfl
  exact ⟨h.1, h.2 [] [] {} "" rfl rfl⟩

/-- C2, counterexample: the input consisting of a single `AttributeEnd` has
one more `AttributeEnd` than `AttributeBegin` and executes with the stack at
its floor (depth 1), yet the parse silently succeeds, leaving depth 0 —
contradicting "fails with an `UnbalancedScope` error" and "the stack depth
therefore never drops below 1 during a successful parse". -/
theorem attribute_end_at_floor_succeeds :
    load_pbrt_exec [.attributeEnd] load_pbrt_init =
      .ok { load_pbrt_init with stack := [] } := by
  rfl

/-- C2 (amended): a scope-pop statement fails only when the stack is already
*empty* (depth 0) — `AttributeEnd`/`TransformEnd` with the "bad pbrt stack"
error and `ObjectEnd` not at all (its unchecked `pop_back` is undefined
behaviour on an empty stack); at depth 1 every pop silently succeeds and
leaves depth 0, so an input with one extra `AttributeEnd` can parse
successfully. -/
theorem scope_pop_fails_only_when_empty (s : load_pbrt_state) :
    (s.stack = [] →
      load_pbrt_step s .attributeEnd = .error .badStack ∧
      load_pbrt_step s .transformEnd = .error .badStack ∧
      load_pbrt_step s .objectEnd = .error .ubEmptyPop) ∧
    (∀ t rest, s.stack = t :: rest →
      load_pbrt_step s .attributeEnd = .ok { s with stack := rest } ∧
      load_pbrt_step s .transformEnd = .ok { s with stack := rest } ∧
      load_pbrt_step s .objectEnd = .ok { s with stack := rest, cur_object := "" }) := by
  constructor
  · intro h; simp [load_pbrt_step, h]
  · intro t rest h; simp [load_pbrt_step, h]

/-- Witness for C2's amended theorem at depth 1 (the initial stack). -/
theorem scope_pop_fails_only_when_empty_witness :
    load_pbrt_step load_pbrt_init .attributeEnd =
        .ok { load_pbrt_init with stack := [] } ∧
    load_pbrt_step load_pbrt_init .transformEnd =
        .ok { load_pbrt_init with stack := [] } ∧
    load_pbrt_step load_pbrt_init .objectEnd =
        .ok { load_pbrt_init with stack := [], cur_object := "" } :=
  (scope_pop_fails_only_when_empty load_pbrt_init).2 {} [] rfl

/-- C8: `ConcatTransform A; ConcatTransform B` is equivalent, from every
interpreter state, to the single `ConcatTransform (A·B)` — composition is by
right-multiplication and frame composition is associative. -/
theorem concat_transform_composes (s : load_pbrt_state) (A B : Frame) :
    load_pbrt_exec [.concatTransform A, .concatTransform B] s =
      load_pbrt_exec [.concatTransform (A.mul B)] s := by
  cases hs : s.stack with
  | nil => simp [load_pbrt_exec, load_pbrt_step, hs]
  | cons c rest =>
    simp only [load_pbrt_exec, load_pbrt_step, hs]
    unfold concat_transform
    by_cases h1 : c.active_transform_start <;>
      by_cases h2 : c.active_transform_end <;>
        simp [h1, h2, Frame.mul_assoc]

/-- C10: `CoordSysTransform` with a name never saved by `CoordinateSystem`
is a silent no-op: the state (in particular the top scope's transform pair)
is left entirely unchanged and no error is raised. -/
theorem coord_sys_transform_unknown_noop (s : load_pbrt_state) (n : String)
    (h : lookupA s.coordsys n = none) :
    load_pbrt_step s (.coordSysTransform n) = .ok s := by
  simp [load_pbrt_step, h]

/-- Witness for C10 at a concrete input. -/
theorem coord_sys_transform_unknown_noop_witness :
    load_pbrt_step load_pbrt_init (.coordSysTransform "nosuch") =
      .ok load_pbrt_init :=
  coord_sys_transform_unknown_noop load_pbrt_init "nosuch" rfl

/-- C5: resolving the same `(material, arealight)` pair twice creates exactly
one derived material: the first (cache-missing) call appends one material and
returns its index, and a second call from the resulting state returns the same
index with the state unchanged — both shape instances reference that one
material. -/
theorem derived_material_deduplicated
    (mmap : List (String × yocto_material)) (amap : List (String × Vec3))
    (st : get_material_state) (m a : String) (idx : Nat)
    (st1 : get_material_state)
    (hmiss : lookupA st.ammap (m ++ "_______" ++ a) = none)
    (hok : get_material mmap amap st m a = .ok (idx, st1)) :
    idx = st.materials.length ∧
    st1.materials.length = st.materials.length + 1 ∧
    get_material mmap amap st1 m a = .ok (idx, st1) := by
  unfold get_material at hok ⊢
  simp only [hmiss] at hok
  cases hm : lookupA mmap m with
  | none => simp only [hm] at hok; cases hok
  | some material =>
    simp only [hm] at hok
    cases ha : lookupA amap a with
    | none => simp only [ha] at hok; cases hok
    | some em =>
      simp only [ha, Except.ok.injEq, Prod.mk.injEq] at hok
      obtain ⟨hidx, hst1⟩ := hok
      subst hst1
      refine ⟨hidx.symm, by simp, ?_⟩
      simp [lookupA_insertA_self, hidx]

/-- Witness for C5 at a concrete input: material `"m"`, arealight `"al"`
with emission (1,1,1), empty cache. -/
theorem derived_material_deduplicated_witness :
    (0 : Nat) = (({} : get_material_state)).materials.length ∧
    ({ ammap := [("m_______al", 0)],
       materials := [{ uri := "m_arealight_0", emission := ⟨1, 1, 1⟩ }],
       light_id := 1 } : get_material_state).materials.length =
      (({} : get_material_state)).materials.length + 1 ∧
    get_material [("m", { uri := "m" })] [("", Vec3.zero), ("al", ⟨1, 1, 1⟩)]
      { ammap := [("m_______al", 0)],
        materials := [{ uri := "m_arealight_0", emission := ⟨1, 1, 1⟩ }],
        light_id := 1 } "m" "al" =
      .ok (0, { ammap := [("m_______al", 0)],
                materials := [{ uri := "m_arealight_0", emission := ⟨1, 1, 1⟩ }],
                light_id := 1 }) :=
  derived_material_deduplicated [("m", { uri := "m" })]
    [("", Vec3.zero), ("al", ⟨1, 1, 1⟩)] {} "m" "al" 0 _ rfl rfl

/-- The value the parser produces for the parameter `"integer indices" [ 1 2 ]`:
scalar slot holds the first element, array slot holds both. -/
def c4_integer_array_value : pbrt_value :=
  { name := "indices", type := .integer, value1i := 1, vector1i := [1, 2] }

/-- C4: write→read is *not* idempotent.  The integer case of
`write_pbrt_values` tests `vector1f` (the float array) instead of `vector1i`,
so the integer array `[ 1 2 ]` is written back as the bare scalar `1` and
re-parses to a different value; likewise the scalar `point2` case prints the
`x` component twice, so `(1, 2)` is written as `[ 1 1 ]` and re-parses to
`(1, 1)`. -/
theorem integer_array_roundtrip_fails :
    parse_pbrt_typed (fun _ => Vec3.zero) "integer" "indices"
        [.lbrack, .num 1, .num 2, .rbrack] = .ok (c4_integer_array_value, []) ∧
    write_pbrt_value c4_integer_array_value = [.num 1] ∧
    parse_pbrt_typed (fun _ => Vec3.zero) "integer" "indices" [.num 1] =
      .ok ({ name := "indices", type := .integer, value1i := 1 }, []) ∧
    ({ name := "indices", type := .integer, value1i := 1 } : pbrt_value) ≠
      c4_integer_array_value ∧
    write_pbrt_value { name := "uv", type := .point2, value2f := (1, 2) } =
      [.lbrack, .num 1, .num 1, .rbrack] ∧
    parse_pbrt_typed (fun _ => Vec3.zero) "point2" "uv"
        [.lbrack, .num 1, .num 1, .rbrack] =
      .ok ({ name := "uv", type := .point2, value2f := (1, 1) }, []) ∧
    ({ name := "uv", type := .point2, value2f := (1, 1) } : pbrt_value) ≠
      { name := "uv", type := .point2, value2f := (1, 2) } := by
  refine ⟨rfl, rfl, rfl, by decide, rfl, rfl, by decide⟩

theorem parse_pbrt_pvalues_f_loop_accum (q : ℚ) (qs : List ℚ) (rest : List PTok)
    (v : ℚ) (acc : List ℚ) (hacc : acc.isEmpty = false) :
    parse_pbrt_pvalues_f_loop v acc
        (PTok.num q :: (qs.map PTok.num ++ PTok.rbrack :: rest)) =
      .ok (v, acc ++ q :: qs, rest) := by
  induction qs generalizing q acc hacc with
  | nil => simp [parse_pbrt_pvalues_f_loop, hacc]
  | cons q' qs' ih =>
    have hacc' : (acc ++ [q]).isEmpty = false := by simp
    have h2 := ih q' (acc ++ [q]) hacc'
    simp only [List.map_cons, List.cons_append]
    rw [parse_pbrt_pvalues_f_loop]
    simp [hacc, h2]
    all_goals simp

theorem parse_pbrt_pvalues_f_loop_first (q : ℚ) (qs : List ℚ) (rest : List PTok)
    (v : ℚ) :
    parse_pbrt_pvalues_f_loop v []
        (PTok.num q :: (qs.map PTok.num ++ PTok.rbrack :: rest)) =
      .ok (q, if qs.isEmpty then [] else q :: qs, rest) := by
  cases qs with
  | nil => simp [parse_pbrt_pvalues_f_loop]
  | cons q' qs' =>
    have h2 := parse_pbrt_pvalues_f_loop_accum q' qs' rest q [q] rfl
    simp only [List.map_cons, List.cons_append]
    rw [parse_pbrt_pvalues_f_loop]
    simp [h2]
    all_goals simp

/-- C7: for a bracketed value region, if exactly one scalar precedes the
closing `]` it lands in the scalar payload with the array payload left empty;
if more than one is read, all of them — the first included — land in the
array payload (the scalar slot still holds the first). -/
theorem bracketed_single_normalization (qs : List ℚ) (rest : List PTok)
    (h : qs ≠ []) :
    parse_pbrt_pvalues_f (PTok.lbrack :: (qs.map PTok.num ++ PTok.rbrack :: rest)) =
      .ok (qs.headD 0, if qs.length = 1 then [] else qs, rest) := by
  cases qs with
  | nil => cases h rfl
  | cons q qs' =>
    simp only [parse_pbrt_pvalues_f, List.map_cons, List.cons_append]
    rw [if_neg (by simp)]
    rw [parse_pbrt_pvalues_f_loop_first]
    cases qs' <;> simp

/-- Witness for C7: one element normalizes to the scalar slot, two land in
the array slot. -/
theorem bracketed_single_normalization_witness :
    parse_pbrt_pvalues_f [PTok.lbrack, PTok.num 3, PTok.rbrack] =
      .ok (3, [], []) ∧
    parse_pbrt_pvalues_f [PTok.lbrack, PTok.num 3, PTok.num 4, PTok.rbrack] =
      .ok (3, [3, 4], []) := by
  constructor
  · simpa using bracketed_single_normalization [3] [] (by simp)
  · simpa using bracketed_single_normalization [3, 4] [] (by simp)

/-! ## Balanced scopes (claim C6) -/

/-- Commands that neither push nor pop a graphics-state scope. -/
def scope_free : pbrt_cmd → Bool
  | .worldBegin | .worldEnd | .attributeBegin | .attributeEnd
  | .transformBegin | .transformEnd | .objectBegin _ | .objectEnd => false
  | _ => true

/-- Statement sequences whose `*Begin`/`*End` pairs nest properly (no world
scopes), the shape of the body between an `AttributeBegin` and its matching
`AttributeEnd`. -/
inductive Balanced : List pbrt_cmd → Prop where
  | nil : Balanced []
  | single (c : pbrt_cmd) : scope_free c = true → Balanced [c]
  | append {l₁ l₂ : List pbrt_cmd} : Balanced l₁ → Balanced l₂ → Balanced (l₁ ++ l₂)
  | attr {l : List pbrt_cmd} : Balanced l →
      Balanced (pbrt_cmd.attributeBegin :: l ++ [pbrt_cmd.attributeEnd])
  | tform {l : List pbrt_cmd} : Balanced l →
      Balanced (pbrt_cmd.transformBegin :: l ++ [pbrt_cmd.transformEnd])
  | obj {l : List pbrt_cmd} (name : String) : Balanced l →
      Balanced (pbrt_cmd.objectBegin name :: l ++ [pbrt_cmd.objectEnd])

/-- A scope-free command can only replace the top scope record: the rest of
the stack below it is untouched. -/
theorem step_scope_free_stack (c : pbrt_cmd) (hc : scope_free c = true)
    (s s' : load_pbrt_state) (t : pbrt_context) (rest : List pbrt_context)
    (hs : s.stack = t :: rest) (hstep : load_pbrt_step s c = .ok s') :
    ∃ t', s'.stack = t' :: rest := by
  cases c <;> simp only [scope_free, Bool.false_eq_true] at hc <;>
    simp only [load_pbrt_step, hs] at hstep <;>
    (repeat' split at hstep) <;>
    cases hstep <;>
    first
      | exact ⟨_, rfl⟩
      | exact ⟨t, by simp [hs]⟩

/-- Executing a balanced body from a stack `t :: rest` can only have replaced
the top record: the stack below is returned intact. -/
theorem balanced_exec_stack_tail {l : List pbrt_cmd} (hb : Balanced l) :
    ∀ (s s' : load_pbrt_state) (t : pbrt_context) (rest : List pbrt_context),
      s.stack = t :: rest → load_pbrt_exec l s = .ok s' →
      ∃ t', s'.stack = t' :: rest := by
  induction hb with
  | nil =>
    intro s s' t rest hs hex
    simp only [load_pbrt_exec] at hex
    cases hex
    exact ⟨t, hs⟩
  | single c hc =>
    intro s s' t rest hs hex
    simp only [load_pbrt_exec] at hex
    cases hstep : load_pbrt_step s c with
    | error e => rw [hstep] at hex; cases hex
    | ok s1 =>
      rw [hstep] at hex
      simp only [load_pbrt_exec] at hex
      cases hex
      exact step_scope_free_stack c hc s _ t rest hs hstep
  | @append l₁ l₂ hb1 hb2 ih1 ih2 =>
    intro s s' t rest hs hex
    rw [load_pbrt_exec_append] at hex
    cases hex1 : load_pbrt_exec l₁ s with
    | error e => rw [hex1] at hex; cases hex
    | ok s1 =>
      rw [hex1] at hex
      obtain ⟨t1, hs1⟩ := ih1 s s1 t rest hs hex1
      exact ih2 s1 s' t1 rest hs1 hex
  | @attr l₁ hb1 ih =>
    intro s s' t rest hs hex
    simp only [load_pbrt_exec, load_pbrt_step, hs, List.append_eq] at hex
    rw [load_pbrt_exec_append] at hex
    cases hex1 : load_pbrt_exec l₁ { s with stack := t :: t :: rest } with
    | error e => rw [hex1] at hex; cases hex
    | ok s2 =>
      rw [hex1] at hex
      obtain ⟨t2, hs2⟩ := ih _ s2 t (t :: rest) (by simp) hex1
      simp only [load_pbrt_exec, load_pbrt_step, hs2] at hex
      cases hex
      exact ⟨t, by simp⟩
  | @tform l₁ hb1 ih =>
    intro s s' t rest hs hex
    simp only [load_pbrt_exec, load_pbrt_step, hs, List.append_eq] at hex
    rw [load_pbrt_exec_append] at hex
    cases hex1 : load_pbrt_exec l₁ { s with stack := t :: t :: rest } with
    | error e => rw [hex1] at hex; cases hex
    | ok s2 =>
      rw [hex1] at hex
      obtain ⟨t2, hs2⟩ := ih _ s2 t (t :: rest) (by simp) hex1
      simp only [load_pbrt_exec, load_pbrt_step, hs2] at hex
      cases hex
      exact ⟨t, by simp⟩
  | @obj l₁ name hb1 ih =>
    intro s s' t rest hs hex
    simp only [load_pbrt_exec, load_pbrt_step, hs, List.append_eq] at hex
    rw [load_pbrt_exec_append] at hex
    cases hex1 : load_pbrt_exec l₁
        { s with stack := t :: t :: rest, cur_object := name,
                 objects := insertA s.objects name [] } with
    | error e => rw [hex1] at hex; cases hex
    | ok s2 =>
      rw [hex1] at hex
      obtain ⟨t2, hs2⟩ := ih _ s2 t (t :: rest) (by simp) hex1
      simp only [load_pbrt_exec, load_pbrt_step, hs2] at hex
      cases hex
      exact ⟨t, by simp⟩

/-- C6: a material made current between `AttributeBegin` and its matching
`AttributeEnd` (any balanced body, in particular one containing `Material` or
`NamedMaterial` statements) is not visible afterwards: a `Shape` executed
after the `AttributeEnd` is bound to the material that was current before the
`AttributeBegin`, and the stack is restored exactly. -/
theorem material_scope_isolation (body : List pbrt_cmd) (ty : String)
    (vals : List pbrt_value) (s s' : load_pbrt_state) (t : pbrt_context)
    (rest : List pbrt_context) (hb : Balanced body) (hs : s.stack = t :: rest)
    (hexec : load_pbrt_exec
        (pbrt_cmd.attributeBegin ::
          (body ++ [pbrt_cmd.attributeEnd, pbrt_cmd.shape ty vals])) s =
      .ok s') :
    (s'.pbrt.shapes.getLast?).map pbrt_shape.material = some t.material ∧
    s'.stack = t :: rest := by
  simp only [load_pbrt_exec, load_pbrt_step, hs, List.append_eq] at hexec
  rw [load_pbrt_exec_append] at hexec
  cases hex1 : load_pbrt_exec body { s with stack := t :: t :: rest } with
  | error e => rw [hex1] at hexec; cases hexec
  | ok s2 =>
    rw [hex1] at hexec
    obtain ⟨t2, hs2⟩ := balanced_exec_stack_tail hb _ s2 t (t :: rest) (by simp) hex1
    by_cases hco : s2.cur_object = "" <;>
      simp only [load_pbrt_exec, load_pbrt_step, hs2, hco, ne_eq,
        not_true_eq_false, not_false_eq_true, ite_true, ite_false,
        if_true, if_false] at hexec <;>
      cases hexec <;>
      exact ⟨by simp [List.getLast?_concat], rfl⟩

/-- The Kd color parameter of the witness's inner `Material` statement. -/
def c6_kd : pbrt_value := { name := "Kd", type := .color, value3f := ⟨1, 0, 0⟩ }

/-- The state `load_pbrt` reaches on the witness input: one registered matte
material, one emitted sphere shape bound to the empty pre-scope material. -/
def c6_final_state : load_pbrt_state :=
  { load_pbrt_init with
    material_id := 1,
    pbrt :=
      { materials := [{ name := "material_0", type := "matte", values := [c6_kd] }],
        shapes := [{ type := "sphere", instance_frames := [Frame.identity],
                     instance_frends := [Frame.identity] }] } }

/-- Witness for C6 at the spec's concrete scenario: a red matte material is
set inside the scope; the sphere after `AttributeEnd` binds the empty default
material that was current before `AttributeBegin`. -/
theorem material_scope_isolation_witness :
    (c6_final_state.pbrt.shapes.getLast?).map pbrt_shape.material = some "" ∧
    c6_final_state.stack = [{}] :=
  material_scope_isolation [pbrt_cmd.material "matte" [c6_kd]] "sphere" []
    load_pbrt_init c6_final_state {} [] (Balanced.single _ rfl) rfl (by rfl)

/-- C3: `Include` does push a new cursor and read it to EOF before resuming
the parent (last conjunct), but the path the modelio loader opens is computed
from the Include *argument's own* parent directory — the local `filename`
shadows the function parameter — so it diverges from the spec'd resolution
relative to the including file: `Include "sub.pbrt"` from
`scenes/main.pbrt` opens `sub.pbrt` (working-directory relative) instead of
`scenes/sub.pbrt`, and `Include "sub/a.pbrt"` opens the doubled
`sub/sub/a.pbrt`; the sceneio loader resolves against the *root* file, which
also differs from the current file once includes nest. -/
theorem include_path_diverges :
    include_path_code "sub.pbrt" = "sub.pbrt" ∧
    include_path_spec "scenes/main.pbrt" "sub.pbrt" = "scenes/sub.pbrt" ∧
    include_path_code "sub.pbrt" ≠ include_path_spec "scenes/main.pbrt" "sub.pbrt" ∧
    include_path_code "sub/a.pbrt" = "sub/sub/a.pbrt" ∧
    include_path_sceneio "scenes/main.pbrt" "c.pbrt" = "scenes/c.pbrt" ∧
    include_path_spec "scenes/sub/b.pbrt" "c.pbrt" = "scenes/sub/c.pbrt" ∧
    include_path_sceneio "scenes/main.pbrt" "c.pbrt" ≠
      include_path_spec "scenes/sub/b.pbrt" "c.pbrt" ∧
    include_run
        (fun p => if p = "sub.pbrt" then some [.plain 10, .plain 11] else none) 12
        [⟨"scenes/main.pbrt", [.plain 1, .inc "sub.pbrt", .plain 2]⟩] =
      [1, 10, 11, 2] := by
  refine ⟨rfl, rfl, ?_, rfl, rfl, rfl, ?_, rfl⟩
  · intro h; cases h
  · intro h; cases h

/-! ## String lemmas for spectrum filename resolution (claim C9) -/

theorem mem_imp_ne_true (a : Char) (xs : List Char) (h : a ∉ xs) :
    ∀ c ∈ xs, (decide (c ≠ a)) = true := by
  intro c hc
  simp only [decide_eq_true_eq]
  rintro rfl
  exact h hc

theorem takeWhile_all_true {α : Type _} (p : α → Bool) (xs : List α)
    (h : ∀ c ∈ xs, p c = true) : xs.takeWhile p = xs := by
  induction xs with
  | nil => rfl
  | cons x xt ih =>
    simp [List.takeWhile_cons, h x (by simp), ih (fun c hc => h c (by simp [hc]))]

theorem dropWhile_all_true {α : Type _} (p : α → Bool) (xs : List α)
    (h : ∀ c ∈ xs, p c = true) : xs.dropWhile p = [] := by
  induction xs with
  | nil => rfl
  | cons x xt ih =>
    simp [List.dropWhile_cons, h x (by simp), ih (fun c hc => h c (by simp [hc]))]

theorem takeWhile_append_stop {α : Type _} (p : α → Bool) (a : α) (xs ys : List α)
    (hxs : ∀ c ∈ xs, p c = true) (ha : p a = false) :
    (xs ++ a :: ys).takeWhile p = xs := by
  induction xs with
  | nil => simp [List.takeWhile_cons, ha]
  | cons x xt ih =>
    simp [List.takeWhile_cons, hxs x (by simp), ih (fun c hc => hxs c (by simp [hc]))]

theorem dropWhile_append_stop {α : Type _} (p : α → Bool) (a : α) (xs ys : List α)
    (hxs : ∀ c ∈ xs, p c = true) (ha : p a = false) :
    (xs ++ a :: ys).dropWhile p = a :: ys := by
  induction xs with
  | nil => simp [List.dropWhile_cons, ha]
  | cons x xt ih =>
    simp [List.dropWhile_cons, hxs x (by simp), ih (fun c hc => hxs c (by simp [hc]))]

theorem pathLastComponent_no_slash (l : List Char) (h : '/' ∉ l) :
    pathLastComponent l = l := by
  unfold pathLastComponent
  rw [takeWhile_all_true _ _ (mem_imp_ne_true '/' l.reverse (by simpa using h))]
  simp

/-- Splitting off the extension after the last period of
`stem ++ "." ++ ext`, when the extension chunk itself is period-free. -/
theorem extSplit_last_dot (stem ext : List Char) (hstem : stem ≠ [])
    (hext : '.' ∉ ext) (hextne : ext ≠ []) :
    pathExtension (stem ++ '.' :: ext) = '.' :: ext ∧
    pathStem (stem ++ '.' :: ext) = stem := by
  have hmem : ∀ c ∈ ext.reverse, (decide (c ≠ '.')) = true :=
    mem_imp_ne_true '.' ext.reverse (by simpa using hext)
  have hspan : (stem ++ '.' :: ext).reverse.span (fun c => c ≠ '.') =
      (ext.reverse, '.' :: stem.reverse) := by
    rw [List.reverse_append, List.reverse_cons, List.append_assoc,
      List.singleton_append, List.span_eq_take_drop,
      takeWhile_append_stop _ _ _ _ hmem (by simp),
      dropWhile_append_stop _ _ _ _ hmem (by simp)]
  have hguard : ¬(stem ++ '.' :: ext = ['.'] ∨ stem ++ '.' :: ext = ['.', '.']) := by
    have h1 : 0 < stem.length := List.length_pos.mpr hstem
    have h2 : 0 < ext.length := List.length_pos.mpr hextne
    rintro (h | h) <;> (have hl := congrArg List.length h; simp at hl; omega)
  cases hsr : stem.reverse with
  | nil => exact absurd (by simpa using hsr) hstem
  | cons a srest =>
    constructor
    · unfold pathExtension
      rw [if_neg hguard, hspan, hsr]
      simp
    · unfold pathStem
      rw [if_neg hguard, hspan, hsr]
      simp only []
      have : srest.reverse ++ [a] = stem := by
        have := congrArg List.reverse hsr
        simpa using this.symm
      simpa using this

/-- A period-free component has no extension and is its own stem. -/
theorem extSplit_no_dot (l : List Char) (h : '.' ∉ l) :
    pathExtension l = [] ∧ pathStem l = l := by
  have hguard : ¬(l = ['.'] ∨ l = ['.', '.']) := by
    rintro (rfl | rfl) <;> simp at h
  have hmem : ∀ c ∈ l.reverse, (decide (c ≠ '.')) = true :=
    mem_imp_ne_true '.' l.reverse (by simpa using h)
  have hspan : l.reverse.span (fun c => c ≠ '.') = (l.reverse, []) := by
    rw [List.span_eq_take_drop, takeWhile_all_true _ _ hmem,
      dropWhile_all_true _ _ hmem]
  exact ⟨by unfold pathExtension; rw [if_neg hguard, hspan],
         by unfold pathStem; rw [if_neg hguard, hspan]⟩

/-- C9, counterexample: the filename `"SHPS.spd"` carries neither a
`.eta.spd` nor a `.k.spd` suffix, yet it is not rejected: it resolves to the
color (1,1,1). -/
theorem spectrum_shps_accepted :
    spectrum_filename_resolve "SHPS.spd" = .ok ⟨1, 1, 1⟩ ∧
    ".eta.spd".toList.isSuffixOf "SHPS.spd".toList = false ∧
    ".k.spd".toList.isSuffixOf "SHPS.spd".toList = false :=
  ⟨rfl, rfl, rfl⟩

theorem getLast_append_ne (l : List Char) (xs : List Char) (a : Char)
    (ys : List Char) (h : ys.getLast? ≠ some a) :
    l ++ (xs ++ [a]) ≠ ys := by
  intro hh
  apply h
  rw [← hh, ← List.append_assoc, List.getLast?_concat]

/-- C9 (amended): a quoted `spectrum` filename with a `.spd` extension and a
`.eta.spd` / `.k.spd` suffix resolves through the metal table when the metal
name is present (and fails with the table's out-of-range error when it is
not); the special `.spd` file `SHPS` resolves to white; any other `.spd`
file fails with the unknown-spectrum-file error and any non-`.spd` file with
the unsupported-spectrum-format error. -/
theorem spectrum_filename_resolution_cases :
    (∀ (n : String) (ek : Vec3 × Vec3), get_pbrt_etak n = some ek →
      n.toList ≠ [] → '.' ∉ n.toList → '/' ∉ n.toList →
      spectrum_filename_resolve (n ++ ".eta.spd") = .ok ek.1 ∧
      spectrum_filename_resolve (n ++ ".k.spd") = .ok ek.2) ∧
    (∀ (n : String), get_pbrt_etak n = none →
      n.toList ≠ [] → '.' ∉ n.toList → '/' ∉ n.toList →
      spectrum_filename_resolve (n ++ ".eta.spd") = .error .outOfRange ∧
      spectrum_filename_resolve (n ++ ".k.spd") = .error .outOfRange) ∧
    spectrum_filename_resolve "SHPS.spd" = .ok ⟨1, 1, 1⟩ ∧
    (∀ (n : String), n.toList ≠ [] → '.' ∉ n.toList → '/' ∉ n.toList →
      n ≠ "SHPS" →
      spectrum_filename_resolve (n ++ ".spd") = .error .unknownSpectrumFile) ∧
    (∀ (f : String),
      pathExtension (pathLastComponent f.toList) ≠ ".spd".toList →
      spectrum_filename_resolve f = .error .unsupportedSpectrum) := by
  have metal_case : ∀ (mid : List Char), mid ≠ [] → '.' ∉ mid → '/' ∉ mid →
      mid.getLast? ≠ some 'S' →
      ∀ (n : String), n.toList ≠ [] → '.' ∉ n.toList → '/' ∉ n.toList →
      spectrum_filename_resolve (n ++ String.mk ('.' :: mid ++ ".spd".toList)) =
        (if pathExtension (n.toList ++ '.' :: mid) = ".eta".toList then
           (match get_pbrt_etak n with
            | some ek => .ok ek.1
            | none => .error .outOfRange)
         else if pathExtension (n.toList ++ '.' :: mid) = ".k".toList then
           (match get_pbrt_etak n with
            | some ek => .ok ek.2
            | none => .error .outOfRange)
         else .error .unknownSpectrumFile) := by
    intro mid hmne hmdot hmslash hmlast n hn hdot hslash
    have htl : (n ++ String.mk ('.' :: mid ++ ".spd".toList)).toList =
        (n.toList ++ '.' :: mid) ++ '.' :: "spd".toList := by
      rw [show (n ++ String.mk ('.' :: mid ++ ".spd".toList)).toList =
          n.toList ++ ('.' :: mid ++ ".spd".toList) from rfl]
      rw [show ('.' :: mid ++ ".spd".toList : List Char) =
          ('.' :: mid) ++ '.' :: "spd".toList from rfl]
      rw [← List.append_assoc]
    have hslash2 : '/' ∉ (n.toList ++ '.' :: mid) ++ '.' :: "spd".toList := by
      simp only [List.mem_append, List.mem_cons, not_or]
      refine ⟨⟨hslash, by simp, hmslash⟩, by simp, by decide⟩
    have hstem1 : (n.toList ++ '.' :: mid : List Char) ≠ [] := by simp
    have hsplit1 := extSplit_last_dot (n.toList ++ '.' :: mid) "spd".toList
      hstem1 (by decide) (by decide)
    have hsplit2 := extSplit_last_dot n.toList mid hn hmdot hmne
    have hshps : (n.toList ++ '.' :: mid : List Char) ≠ "SHPS".toList := by
      have : ('.' :: mid : List Char) = ('.' :: mid.dropLast) ++ [mid.getLast (by exact hmne)] := by
        rw [show ('.' :: mid.dropLast) ++ [mid.getLast hmne] =
            '.' :: (mid.dropLast ++ [mid.getLast hmne]) from rfl]
        rw [List.dropLast_append_getLast hmne]
      rw [this]
      apply getLast_append_ne
      intro hlast
      apply hmlast
      rw [← List.getLast?_eq_getLast mid hmne] at hlast
      simpa using hlast.symm
    simp only [spectrum_filename_resolve]
    rw [htl, pathLastComponent_no_slash _ hslash2, hsplit1.1,
      if_pos (show ('.' :: "spd".toList : List Char) = ".spd".toList from rfl),
      hsplit1.2, if_neg hshps, hsplit2.2, show String.mk n.toList = n from rfl]
  refine ⟨?_, ?_, rfl, ?_, ?_⟩
  · intro n ek htab hn hdot hslash
    constructor
    · have h := metal_case ['e', 't', 'a'] (by decide) (by decide) (by decide)
        (by decide) n hn hdot hslash
      rw [show (n ++ ".eta.spd" : String) =
          n ++ String.mk ('.' :: ['e', 't', 'a'] ++ ".spd".toList) from rfl, h, htab,
        (extSplit_last_dot n.toList ['e', 't', 'a'] hn (by decide) (by decide)).1]
      rfl
    · have h := metal_case ['k'] (by decide) (by decide) (by decide)
        (by decide) n hn hdot hslash
      rw [show (n ++ ".k.spd" : String) =
          n ++ String.mk ('.' :: ['k'] ++ ".spd".toList) from rfl, h, htab,
        (extSplit_last_dot n.toList ['k'] hn (by decide) (by decide)).1]
      rfl
  · intro n htab hn hdot hslash
    constructor
    · have h := metal_case ['e', 't', 'a'] (by decide) (by decide) (by decide)
        (by decide) n hn hdot hslash
      rw [show (n ++ ".eta.spd" : String) =
          n ++ String.mk ('.' :: ['e', 't', 'a'] ++ ".spd".toList) from rfl, h, htab,
        (extSplit_last_dot n.toList ['e', 't', 'a'] hn (by decide) (by decide)).1]
      rfl
    · have h := metal_case ['k'] (by decide) (by decide) (by decide)
        (by decide) n hn hdot hslash
      rw [show (n ++ ".k.spd" : String) =
          n ++ String.mk ('.' :: ['k'] ++ ".spd".toList) from rfl, h, htab,
        (extSplit_last_dot n.toList ['k'] hn (by decide) (by decide)).1]
      rfl
  · intro n hn hdot hslash hshps
    have htl : (n ++ ".spd").toList = n.toList ++ '.' :: "spd".toList := rfl
    have hslash2 : '/' ∉ n.toList ++ '.' :: "spd".toList := by
      simp only [List.mem_append, List.mem_cons, not_or]
      exact ⟨hslash, by simp, by decide⟩
    have hsplit1 := extSplit_last_dot n.toList "spd".toList hn (by decide) (by decide)
    have hnodot := extSplit_no_dot n.toList hdot
    simp only [spectrum_filename_resolve]
    rw [htl, pathLastComponent_no_slash _ hslash2, hsplit1.1,
      if_pos (show ('.' :: "spd".toList : List Char) = ".spd".toList from rfl),
      hsplit1.2,
      if_neg (fun hh : n.toList = "SHPS".toList => hshps (congrArg String.mk hh)),
      hnodot.1, if_neg (by decide), if_neg (by decide)]
  · intro f hne
    simp only [spectrum_filename_resolve]
    rw [if_neg hne]

/-- Witness for C9's amended theorem at concrete filenames. -/
theorem spectrum_filename_resolution_cases_witness :
    spectrum_filename_resolve "Ag.eta.spd" =
      .ok ⟨0.1552646489, 0.1167232965, 0.1383806959⟩ ∧
    spectrum_filename_resolve "Ag.k.spd" =
      .ok ⟨4.8283433224, 3.1222459278, 2.1469504455⟩ ∧
    spectrum_filename_resolve "Xy.eta.spd" = .error .outOfRange ∧
    spectrum_filename_resolve "SHPS.spd" = .ok ⟨1, 1, 1⟩ ∧
    spectrum_filename_resolve "foo.spd" = .error .unknownSpectrumFile ∧
    spectrum_filename_resolve "foo.txt" = .error .unsupportedSpectrum := by
  obtain ⟨h1, h2, h3, h4, h5⟩ := spectrum_filename_resolution_cases
  have ha := h1 "Ag"
    (⟨0.1552646489, 0.1167232965, 0.1383806959⟩,
     ⟨4.8283433224, 3.1222459278, 2.1469504455⟩)
    rfl (by decide) (by decide) (by decide)
  have hx := h2 "Xy" rfl (by decide) (by decide) (by decide)
  exact ⟨ha.1, ha.2, hx.1, h3,
    h4 "foo" (by decide) (by decide) (by decide) (by decide),
    h5 "foo.txt" (by decide)⟩

end YoctoPbrt
